import Mathlib

/-!
# Verification of the 104 crawler (`104_crawler_new.py`)

A shallow embedding of the crawler's pure logic:

* `read_config` / `AREA_CODES` — the configuration reader and the fixed
  region-name → region-code table;
* `fetch_job_detail` — the detail-document normalizer, modelled over a
  `Json` value type with Python's dynamic semantics (truthiness, `dict.get`
  raising `AttributeError` on non-mappings, `str.join` raising `TypeError`
  on non-string elements, short-circuiting `or`, and so on), returning
  `Except PyError JobRecord`;
* `runDriver` — the `__main__` loop, as a fold producing the collected
  records together with an event trace (fetches, success prints, sleeps,
  skip warnings).

Theorems about these definitions settle the specification claims.
-/

set_option maxHeartbeats 1000000

/-- A JSON value, the shape of the documents returned by the 104 API. -/
inductive Json where
  | null
  | bool (b : Bool)
  | num (n : Int)
  | str (s : String)
  | arr (xs : List Json)
  | obj (kvs : List (String × Json))
  deriving Repr

/-- The Python exceptions the script can raise while normalizing a document. -/
inductive PyError where
  | valueError (msg : String)
  | attributeError
  | typeError
  | keyError (k : String)
  | httpError (code : Nat)
  deriving Repr, DecidableEq

/-- First-match lookup in an association list, the semantics of a Python
`dict` whose keys are unique. -/
def dictLookup : List (String × Json) → String → Option Json
  | [], _ => none
  | (k, v) :: rest, key => if k = key then some v else dictLookup rest key

/-- Python truthiness of a JSON value (`bool(x)`). -/
def truthy : Json → Bool
  | Json.null => false
  | Json.bool b => b
  | Json.num n => n != 0
  | Json.str s => s != ""
  | Json.arr xs => !xs.isEmpty
  | Json.obj kvs => !kvs.isEmpty

/-- Python `x.get(k)` (default `None`): `AttributeError` unless `x` is a dict. -/
def pyGet (j : Json) (k : String) : Except PyError Json :=
  match j with
  | Json.obj kvs => Except.ok ((dictLookup kvs k).getD Json.null)
  | _ => Except.error PyError.attributeError

/-- Python `x.get(k, d)`: `AttributeError` unless `x` is a dict. -/
def pyGetD (j : Json) (k : String) (d : Json) : Except PyError Json :=
  match j with
  | Json.obj kvs => Except.ok ((dictLookup kvs k).getD d)
  | _ => Except.error PyError.attributeError

/-- Python iteration `for x in j`: lists yield elements, strings yield
one-character strings, dicts yield their keys; other values raise
`TypeError`. -/
def pyIter (j : Json) : Except PyError (List Json) :=
  match j with
  | Json.arr xs => Except.ok xs
  | Json.str s => Except.ok (s.toList.map (fun c => Json.str (String.singleton c)))
  | Json.obj kvs => Except.ok (kvs.map (fun kv => Json.str kv.1))
  | _ => Except.error PyError.typeError

/-- Extract the strings from a list of values; `TypeError` on a non-string
element (the semantics of `str.join`). -/
def strList : List Json → Except PyError (List String)
  | [] => Except.ok []
  | Json.str s :: rest => do
    let tail ← strList rest
    Except.ok (s :: tail)
  | _ :: _ => Except.error PyError.typeError

/-- Python `sep.join(xs)`. -/
def pyJoin (sep : String) (xs : List Json) : Except PyError String := do
  let ss ← strList xs
  Except.ok (String.intercalate sep ss)

mutual

/-- Python `repr()` of a JSON value (best effort; only consulted for
non-string values interpolated into f-strings, which no claim exercises). -/
def pyRepr : Json → String
  | Json.null => "None"
  | Json.bool b => if b then "True" else "False"
  | Json.num n => toString n
  | Json.str s => "\x27" ++ s ++ "\x27"
  | Json.arr xs => "[" ++ String.intercalate ", " (pyReprList xs) ++ "]"
  | Json.obj kvs => "\x7b" ++ String.intercalate ", " (pyReprObj kvs) ++ "\x7d"

/-- Python list `repr` of the elements of a list value. -/
def pyReprList : List Json → List String
  | [] => []
  | j :: rest => pyRepr j :: pyReprList rest

/-- Python dict `repr` of the entries of an object value. -/
def pyReprObj : List (String × Json) → List String
  | [] => []
  | (k, v) :: rest => ("\x27" ++ k ++ "\x27: " ++ pyRepr v) :: pyReprObj rest

end

/-- Python `str()` of a JSON value. -/
def pyStr : Json → String
  | Json.str s => s
  | j => pyRepr j

/-- The numeric view Python's `+` takes of ints and bools. -/
def asNum : Json → Option Int
  | Json.num n => some n
  | Json.bool b => some (if b then 1 else 0)
  | _ => none

/-- Python `a + b` on JSON values. -/
def pyAdd (a b : Json) : Except PyError Json :=
  match a, b with
  | Json.str x, Json.str y => Except.ok (Json.str (x ++ y))
  | Json.arr x, Json.arr y => Except.ok (Json.arr (x ++ y))
  | x, y =>
    match asNum x, asNum y with
    | some m, some n => Except.ok (Json.num (m + n))
    | _, _ => Except.error PyError.typeError

/-- The whitespace characters Python's `str.strip()` removes (the ASCII
ones, which are the only ones the crawler can meet). -/
def isPyWhitespace (ch : Char) : Bool :=
  ch = ' ' || ch = '\t' || ch = '\n' || ch = '\r' || ch = '\x0b' || ch = '\x0c'

/-- Python `s.strip()`. -/
def pyStrip (s : String) : String :=
  String.mk (((s.toList.dropWhile isPyWhitespace).reverse.dropWhile isPyWhitespace).reverse)

/-- Python `s.replace("\r\n", " ")` on the character list, left to right. -/
def replaceCRLF : List Char → List Char
  | [] => []
  | '\r' :: '\n' :: rest => ' ' :: replaceCRLF rest
  | x :: rest => x :: replaceCRLF rest

/-- Python `x.replace("\r\n", " ")`: `AttributeError` unless `x` is a string. -/
def pyReplace (j : Json) : Except PyError String :=
  match j with
  | Json.str s => Except.ok (String.mk (replaceCRLF s.toList))
  | _ => Except.error PyError.attributeError

/-- Python `s.split(c)` for a one-character separator, on character lists. -/
def splitChars (c : Char) : List Char → List (List Char)
  | [] => [[]]
  | x :: rest =>
    let r := splitChars c rest
    if x = c then [] :: r
    else
      match r with
      | [] => [[x]]
      | h :: t => (x :: h) :: t

/-- Python `s.split(c)` for a one-character separator. -/
def splitOnChar (c : Char) (s : String) : List String :=
  (splitChars c s.toList).map String.mk

/-- The identifier extraction `job_id.split("?")[0].split("/")[-1]` from
`fetch_job_detail`. -/
def extract_job_id (job_id : String) : String :=
  (splitOnChar '/' ((splitOnChar '?' job_id).headD "")).getLastD ""

/-- A normalized output row: the `job_data` dict, as an ordered list of
(column name, value) pairs. -/
abbrev JobRecord : Type := List (String × Json)

/-- The chain `info.get("custName") or cust.get("custName") or
header.get("custName") or "（未知公司）"`, with Python's short-circuit
evaluation of `or`. -/
def companyName (info cust header : Json) : Except PyError Json := do
  let a ← pyGet info "custName"
  if truthy a then Except.ok a else do
  let b ← pyGet cust "custName"
  if truthy b then Except.ok b else do
  let c ← pyGet header "custName"
  if truthy c then Except.ok c else
  Except.ok (Json.str "（未知公司）")

/-- The chain `detail.get("jobName") or header.get("jobName") or
info.get("jobName") or "（未命名職缺）"`. -/
def jobName (detail header info : Json) : Except PyError Json := do
  let a ← pyGet detail "jobName"
  if truthy a then Except.ok a else do
  let b ← pyGet header "jobName"
  if truthy b then Except.ok b else do
  let c ← pyGet info "jobName"
  if truthy c then Except.ok c else
  Except.ok (Json.str "（未命名職缺）")

/-- The loop body of the language block: for each entry, read
`lang.get("language", "")` and `lang.get("ability", "")`; when the language
is truthy, append `f"{lang_item}:{ability}"` if the ability is truthy, else
append the raw `lang_item`. -/
def langLoop : List Json → Except PyError (List Json)
  | [] => Except.ok []
  | lang :: rest => do
    let lang_item ← pyGetD lang "language" (Json.str "")
    let ability ← pyGetD lang "ability" (Json.str "")
    let tail ← langLoop rest
    if truthy lang_item then
      if truthy ability then
        Except.ok (Json.str (pyStr lang_item ++ ":" ++ pyStr ability) :: tail)
      else
        Except.ok (lang_item :: tail)
    else
      Except.ok tail

/-- The 語言能力 field: iterate `condition.get("language", [])`, then
`", ".join(lang_list) if lang_list else "未指定"`. -/
def languageField (condition : Json) : Except PyError String := do
  let lv ← pyGetD condition "language" (Json.arr [])
  let items ← pyIter lv
  let lang_list ← langLoop items
  if lang_list.isEmpty then Except.ok "未指定" else pyJoin ", " lang_list

/-- The comprehension `[sp.get("desc", "") for sp in L if sp.get("desc")]`: the filter
expression is evaluated first, then the element expression. -/
def descList : List Json → Except PyError (List Json)
  | [] => Except.ok []
  | sp :: rest => do
    let filt ← pyGet sp "desc"
    if truthy filt then do
      let v ← pyGetD sp "desc" (Json.str "")
      let tail ← descList rest
      Except.ok (v :: tail)
    else
      descList rest

/-- The shared 擅長工具 / 工作技能 logic (`key` is `"specialty"` or
`"skill"`): if `condition.get(key)` is a list, join the truthy `desc`
subfields; if a string, use it; otherwise use `detail.get(key)` when truthy;
finally replace a falsy result with `"未指定"`. -/
def specialtySkill (key : String) (condition detail : Json) : Except PyError Json := do
  let cv ← pyGet condition key
  let sp ←
    (match cv with
     | Json.arr sps => do
        let lst ← descList sps
        let s ← pyJoin ", " lst
        Except.ok (Json.str s)
     | Json.str s => Except.ok (Json.str s)
     | _ => do
        let dv ← pyGet detail key
        if truthy dv then Except.ok dv else Except.ok (Json.str ""))
  Except.ok (if truthy sp then sp else Json.str "未指定")

/-- The 其他條件 chain `condition.get("other") or detail.get("otherCondition")
or info.get("requirement", {}).get("other") or ""`, with Python's
short-circuit evaluation of `or`. -/
def otherChain (condition detail info : Json) : Except PyError Json := do
  let a ← pyGet condition "other"
  if truthy a then Except.ok a else do
  let b ← pyGet detail "otherCondition"
  if truthy b then Except.ok b else do
  let req ← pyGetD info "requirement" (Json.obj [])
  let c ← pyGet req "other"
  if truthy c then Except.ok c else
  Except.ok (Json.str "")

/-- The 其他條件 field: the chain above, then
`str(...).replace("\r\n", " ").strip()`. -/
def otherField (condition detail info : Json) : Except PyError String := do
  let oc ← otherChain condition detail info
  Except.ok (pyStrip (String.mk (replaceCRLF (pyStr oc).toList)))

/-- The 地點 field
`(detail.get("addressRegion", "") or "") + (detail.get("addressDetail", "") or "")`. -/
def locationField (detail : Json) : Except PyError Json := do
  let r ← pyGetD detail "addressRegion" (Json.str "")
  let a := if truthy r then r else Json.str ""
  let d ← pyGetD detail "addressDetail" (Json.str "")
  let b := if truthy d then d else Json.str ""
  pyAdd a b

/-- The 工作內容 field
`(detail.get("jobDescription", "") or "").replace("\r\n", " ").strip()`. -/
def descriptionField (detail : Json) : Except PyError String := do
  let j ← pyGetD detail "jobDescription" (Json.str "")
  let jj := if truthy j then j else Json.str ""
  let s ← pyReplace jj
  Except.ok (pyStrip s)

/-- The body of `fetch_job_detail` after the withdrawn-listing check:
section extraction, the per-field computations, and the `job_data` dict
literal, in the source's evaluation order. -/
def normalizeInfo (job_id : String) (info : Json) : Except PyError JobRecord := do
  let header ← pyGetD info "header" (Json.obj [])
  let detail ← pyGetD info "jobDetail" (Json.obj [])
  let condition ← pyGetD info "condition" (Json.obj [])
  let cust ← pyGetD info "custInfo" (Json.obj [])
  let welfare ← pyGetD info "welfare" (Json.obj [])
  let company_name ← companyName info cust header
  let job_name ← jobName detail header info
  let language ← languageField condition
  let specialty ← specialtySkill "specialty" condition detail
  let skills ← specialtySkill "skill" condition detail
  let other_condition ← otherField condition detail info
  let location ← locationField detail
  let workExp ← pyGetD condition "workExp" (Json.str "")
  let edu ← pyGetD condition "edu" (Json.str "")
  let salary ← pyGetD detail "salary" (Json.str "")
  let welfareV ← pyGetD welfare "welfare" (Json.str "")
  let needEmp ← pyGetD detail "needEmp" (Json.str "")
  let jobDesc ← descriptionField detail
  let appearDate ← pyGetD header "appearDate" (Json.str "")
  Except.ok
    [("公司名稱", company_name),
     ("職缺名稱", job_name),
     ("地點", location),
     ("工作經歷", workExp),
     ("學歷", edu),
     ("語言能力", Json.str language),
     ("擅長工具", specialty),
     ("工作技能", skills),
     ("薪資", salary),
     ("福利", welfareV),
     ("職缺需求人數", needEmp),
     ("工作內容", Json.str jobDesc),
     ("其他條件", Json.str other_condition),
     ("職缺更新日期", appearDate),
     ("職缺連結", Json.str ("https://www.104.com.tw/job/" ++ job_id))]

/-- The normalizer `fetch_job_detail`, from the parsed JSON response body onward: extract
the item identifier, raise `ValueError` when `data.get("data")` is falsy,
otherwise normalize `data["data"]` into the `job_data` row. -/
def fetch_job_detail (job_id : String) (body : Json) : Except PyError JobRecord := do
  let d ← pyGet body "data"
  if truthy d then
    normalizeInfo (extract_job_id job_id) d
  else
    Except.error (PyError.valueError "此職缺資料不完整或已下架")

/-- The field a normalization result assigns to column `k` (when it
succeeded and the column is present). -/
def fieldOf (x : Except PyError JobRecord) (k : String) : Option Json :=
  match x with
  | Except.ok r => dictLookup r k
  | Except.error _ => none

/-- The fixed region name → code table `AREA_CODES`, verbatim. -/
def AREA_CODES : List (String × String) :=
  [("台北市", "6001001000"),
   ("新北市", "6001002000"),
   ("桃園市", "6001003000"),
   ("台中市", "6001004000"),
   ("高雄市", "6001005000"),
   ("台南市", "6001006000"),
   ("新竹縣", "6001007000"),
   ("新竹市", "6001008000"),
   ("苗栗縣", "6001009000"),
   ("彰化縣", "6001011000"),
   ("雲林縣", "6001012000"),
   ("嘉義市", "6001010000"),
   ("嘉義縣", "6001011000"),
   ("屏東縣", "6001013000"),
   ("宜蘭縣", "6001015000"),
   ("花蓮縣", "6001014000"),
   ("台東縣", "6001016000"),
   ("基隆市", "6001017000"),
   ("南投縣", "6001018000"),
   ("澎湖縣", "6001019000"),
   ("金門縣", "6001020000"),
   ("連江縣", "6001021000")]

/-- First-match lookup in the string table (`a in AREA_CODES` / `AREA_CODES[a]`). -/
def tableLookup : List (String × String) → String → Option String
  | [], _ => none
  | (k, v) :: rest, key => if k = key then some v else tableLookup rest key

/-- Assignment `params[key] = value` on a Python dict kept as an ordered association
list: replace in place when the key exists, else append. -/
def dictSet : List (String × String) → String → String → List (String × String)
  | [], k, v => [(k, v)]
  | (k1, v1) :: rest, k, v =>
    if k1 = k then (k, v) :: rest else (k1, v1) :: dictSet rest k v

/-- Python `"=" in line` (the separator is a single character). -/
def hasEq (line : String) : Bool :=
  line.toList.any (fun c => c = '=')

/-- Python `line.split("=", 1)`: the text before the first `=` and the rest. -/
def splitFirstEq (line : String) : String × String :=
  let parts := splitOnChar '=' line
  (parts.headD "", String.intercalate "=" parts.tail)

/-- Python `line.startswith("#")`. -/
def startsWithHash (line : String) : Bool :=
  match line.toList with
  | '#' :: _ => true
  | _ => false

/-- The loop of the area block: resolved codes in input order, plus the
warning line printed for each unrecognized name. -/
def resolveAreas : List String → List String × List String
  | [] => ([], [])
  | a :: rest =>
    let (cs, ws) := resolveAreas rest
    match tableLookup AREA_CODES a with
    | some c => (c :: cs, ws)
    | none => (cs, ("⚠️ 無法辨識地區名稱：" ++ a) :: ws)

/-- One iteration of the `read_config` line loop over the state
(params dict, warnings printed so far). -/
def read_config_line (pw : List (String × String) × List String) (rawLine : String) :
    List (String × String) × List String :=
  let line := pyStrip rawLine
  if line = "" then pw
  else if startsWithHash line then pw
  else if !hasEq line then pw
  else
    let kv := splitFirstEq line
    let key := kv.1
    let value0 := pyStrip kv.2
    if key = "area" then
      let areas := (splitOnChar ',' value0).map pyStrip
      let cw := resolveAreas areas
      (dictSet pw.1 (pyStrip key) (String.intercalate "," cw.1), pw.2 ++ cw.2)
    else
      (dictSet pw.1 (pyStrip key) value0, pw.2)

/-- The reader `read_config`, over the already-read list of lines: the resulting
params dict together with the warnings printed along the way. -/
def read_config (lines : List String) : List (String × String) × List String :=
  lines.foldl read_config_line ([], [])

/-- Console events of the `__main__` loop. -/
inductive Event where
  | fetchItem (id : String)
  | success (title company : String)
  | sleep
  | warn (id : String) (reason : String)
  deriving Repr, DecidableEq

/-- Python `str(e)` for the exceptions of the model. -/
def errMsg : PyError → String
  | PyError.valueError m => m
  | PyError.attributeError => "AttributeError"
  | PyError.typeError => "TypeError"
  | PyError.keyError k => "\x27" ++ k ++ "\x27"
  | PyError.httpError c => "HTTPError " ++ toString c

/-- After a successful fetch: print the success line (its dict subscripts
can raise `KeyError`, which the surrounding `try` turns into a skip
warning) and then sleep. -/
def successEvents (id : String) (r : JobRecord) : List Event :=
  match dictLookup r "職缺名稱" with
  | none => [Event.warn id (errMsg (PyError.keyError "職缺名稱"))]
  | some t =>
    match dictLookup r "公司名稱" with
    | none => [Event.warn id (errMsg (PyError.keyError "公司名稱"))]
    | some c => [Event.success (pyStr t) (pyStr c), Event.sleep]

/-- One iteration of the `__main__` loop: the record appended (if any) and
the console events, for one item reference. -/
def processItem (fetch : String → Except PyError JobRecord) (id : String) :
    Option JobRecord × List Event :=
  match fetch id with
  | Except.error e => (none, [Event.fetchItem id, Event.warn id (errMsg e)])
  | Except.ok r => (some r, Event.fetchItem id :: successEvents id r)

/-- The `__main__` loop over the listing sequence, abstracted over the
per-item fetch outcome: the collected `all_jobs` rows and the event trace. -/
def runDriver (fetch : String → Except PyError JobRecord) : List String → List JobRecord × List Event
  | [] => ([], [])
  | id :: rest =>
    let head := processItem fetch id
    let tail := runDriver fetch rest
    (head.1.toList ++ tail.1, head.2 ++ tail.2)

/-- Holds when every pair of consecutive `fetchItem` events has a `sleep`
between them. The flag records that a fetch occurred with no sleep since. -/
def sleepSep : Bool → List Event → Bool
  | _, [] => true
  | b, Event.fetchItem _ :: rest => if b then false else sleepSep true rest
  | _, Event.sleep :: rest => sleepSep false rest
  | b, Event.success _ _ :: rest => sleepSep b rest
  | b, Event.warn _ _ :: rest => sleepSep b rest

/-- The per-item delay is observed between every two consecutive fetches. -/
def sleepSeparated (evs : List Event) : Bool :=
  sleepSep false evs

/-! ## Typing predicates relating raw JSON to the spec's string-valued fields -/

/-- The string a name-like field carries (`""` when absent, `None`, or
non-string). -/
def strOf (o : Option Json) : String :=
  match o with
  | some (Json.str s) => s
  | _ => ""

/-- A field that is absent, `None`, or a string — the shapes the spec's
"empty or absent" language talks about. -/
def StrLike (o : Option Json) : Prop :=
  o = none ∨ o = some Json.null ∨ ∃ s, o = some (Json.str s)

/-- A field that is absent or a mapping. -/
def ObjOrAbsent (o : Option Json) : Prop :=
  o = none ∨ ∃ kvs, o = some (Json.obj kvs)

/-- A field valued exactly the string `s`, where absence reads as `""`. -/
def StrVal (o : Option Json) (s : String) : Prop :=
  (o = none ∧ s = "") ∨ o = some (Json.str s)

/-- The section value `info.get(k, \x7b\x7d)` the normalizer works with. -/
def sectionOf (kvs : List (String × Json)) (k : String) : Json :=
  (dictLookup kvs k).getD (Json.obj [])

/-- The string field `k` of a section value (empty when the section is not
a mapping or the field is not a string). -/
def strOfField (j : Json) (k : String) : String :=
  match j with
  | Json.obj kvs => strOf (dictLookup kvs k)
  | _ => ""

/-- A section that is a mapping whose field `k` is string-like. -/
def StrLikeField (j : Json) (k : String) : Prop :=
  ∃ kvs, j = Json.obj kvs ∧ StrLike (dictLookup kvs k)

/-! ## Spec-side definitions (the claims' own words) -/

/-- Spec: the company-name fallback chain — first non-empty of the three
sources, else the literal placeholder. -/
def specCompanyChain (top cust header : String) : String :=
  if top ≠ "" then top
  else if cust ≠ "" then cust
  else if header ≠ "" then header
  else "（未知公司）"

/-- Spec: the job-title fallback chain — first non-empty of the three
sources, else the literal placeholder. -/
def specJobChain (detail header top : String) : String :=
  if detail ≠ "" then detail
  else if header ≠ "" then header
  else if top ≠ "" then top
  else "（未命名職缺）"

/-- Spec: one language entry formatted as `language:ability` when an
ability is given, else just `language`. -/
def fmtLangEntry (e : String × String) : String :=
  if e.2 ≠ "" then e.1 ++ ":" ++ e.2 else e.1

/-- Claim C3 as stated: format **each** entry, join with `", "`, and use the
placeholder exactly when the entry list is empty. -/
def specLanguageClaim (es : List (String × String)) : String :=
  if es.isEmpty then "未指定"
  else String.intercalate ", " (es.map fmtLangEntry)

/-- C3 amended to the code: entries whose language is empty are skipped,
and the placeholder is used when no formatted entry remains. -/
def specLanguageAmended (es : List (String × String)) : String :=
  let fs := (es.filter (fun e => e.1 ≠ "")).map fmtLangEntry
  if fs.isEmpty then "未指定" else String.intercalate ", " fs

/-- A raw language entry paired with its (language, ability) strings. -/
def LangEntry (j : Json) (e : String × String) : Prop :=
  ∃ kvs, j = Json.obj kvs ∧
    StrVal (dictLookup kvs "language") e.1 ∧
    StrVal (dictLookup kvs "ability") e.2

/-- Spec: a still-empty result becomes the `"未指定"` placeholder. -/
def orPlaceholder (s : String) : String :=
  if s = "" then "未指定" else s

/-- Claim C4 as stated for the list case: the join of **each** entry's
description subfield. -/
def specListJoinClaim (descs : List String) : String :=
  String.intercalate ", " descs

/-- C4 amended for the list case: entries with an empty or absent
description contribute nothing to the join. -/
def specListJoinAmended (descs : List String) : String :=
  String.intercalate ", " (descs.filter (fun d => d ≠ ""))

/-- A raw specialty/skill entry paired with its description string. -/
def DescEntry (j : Json) (d : String) : Prop :=
  ∃ kvs, j = Json.obj kvs ∧ StrVal (dictLookup kvs "desc") d

/-- The amended three-way dispatch of C4, relating the raw eligibility and
job-detail sections to the output string `out` for field `key`. -/
def DispatchSpec (ckvs dkvs : List (String × Json)) (key : String) (out : String) : Prop :=
  (∃ l ds, dictLookup ckvs key = some (Json.arr l) ∧ List.Forall₂ DescEntry l ds ∧
     out = orPlaceholder (specListJoinAmended ds)) ∨
  (∃ s, dictLookup ckvs key = some (Json.str s) ∧ out = orPlaceholder s) ∨
  ((dictLookup ckvs key = none ∨ dictLookup ckvs key = some Json.null) ∧
   ∃ t, StrVal (dictLookup dkvs key) t ∧ out = orPlaceholder t)

/-! ## Concrete documents and oracles used by witnesses and counterexamples -/

/-- The five sections, present but empty. -/
def emptySectionsKvs : List (String × Json) :=
  [("header", Json.obj []),
   ("jobDetail", Json.obj []),
   ("condition", Json.obj []),
   ("custInfo", Json.obj []),
   ("welfare", Json.obj [])]

/-- A detail body whose five sections are present but empty. -/
def emptySectionsBody : Json :=
  Json.obj [("data", Json.obj emptySectionsKvs)]

/-- Five empty sections plus a numeric top-level `requirement` field. -/
def requirementNumKvs : List (String × Json) :=
  [("header", Json.obj []),
   ("jobDetail", Json.obj []),
   ("condition", Json.obj []),
   ("custInfo", Json.obj []),
   ("welfare", Json.obj []),
   ("requirement", Json.num 7)]

/-- A detail body with present-but-empty sections and `requirement: 7`. -/
def requirementNumBody : Json :=
  Json.obj [("data", Json.obj requirementNumKvs)]

/-- A header section carrying only a company name. -/
def headerOnlyHeaderKvs : List (String × Json) :=
  [("custName", Json.str "小巷咖啡")]

/-- Sections for a document whose company name lives only in the header. -/
def headerOnlyCompanyKvs : List (String × Json) :=
  [("header", Json.obj headerOnlyHeaderKvs),
   ("jobDetail", Json.obj []),
   ("condition", Json.obj []),
   ("custInfo", Json.obj []),
   ("welfare", Json.obj [])]

/-- Company name present only in the lowest-priority source, the header
section. -/
def headerOnlyCompanyBody : Json :=
  Json.obj [("data", Json.obj headerOnlyCompanyKvs)]

/-- Scenario B language list: one entry with an ability, one without. -/
def scenarioBLangList : List Json :=
  [Json.obj [("language", Json.str "English"), ("ability", Json.str "Fluent")],
   Json.obj [("language", Json.str "Japanese"), ("ability", Json.str "")]]

/-- Scenario B eligibility section. -/
def scenarioBCondKvs : List (String × Json) :=
  [("language", Json.arr scenarioBLangList)]

/-- Scenario B business data. -/
def scenarioBKvs : List (String × Json) :=
  [("condition", Json.obj scenarioBCondKvs)]

/-- Scenario B: the eligibility section's language list holds an entry with
an ability and one without. -/
def scenarioBBody : Json :=
  Json.obj [("data", Json.obj scenarioBKvs)]

/-- A language list whose single entry has an empty language but a
non-empty ability. -/
def emptyLanguageNameBody : Json :=
  Json.obj [("data", Json.obj
    [("condition", Json.obj
      [("language", Json.arr
        [Json.obj [("language", Json.str ""), ("ability", Json.str "Fluent")]])])])]

/-- Specialty and skill lists in which one entry's description is empty. -/
def emptyDescBody : Json :=
  Json.obj [("data", Json.obj
    [("condition", Json.obj
      [("specialty", Json.arr
        [Json.obj [("desc", Json.str "")], Json.obj [("desc", Json.str "A")]]),
       ("skill", Json.arr
        [Json.obj [("desc", Json.str "")], Json.obj [("desc", Json.str "A")]])])])]

/-- A well-formed specialty entry list. -/
def dispatchSpecialtyList : List Json :=
  [Json.obj [("desc", Json.str "Python")], Json.obj [("desc", Json.str "Excel")]]

/-- An eligibility section with a list-typed specialty and a string-typed
skill. -/
def dispatchCondKvs : List (String × Json) :=
  [("specialty", Json.arr dispatchSpecialtyList), ("skill", Json.str "溝通協調")]

/-- Business data for the dispatch witness. -/
def dispatchKvs : List (String × Json) :=
  [("condition", Json.obj dispatchCondKvs), ("jobDetail", Json.obj [])]

/-- Specialty as a well-formed entry list and skill as a plain string. -/
def dispatchWitnessBody : Json :=
  Json.obj [("data", Json.obj dispatchKvs)]

/-- A body whose `data` field is present and non-empty but not a mapping. -/
def nonMappingDataBody : Json :=
  Json.obj [("data", Json.str "x")]

/-- A small normalized row carrying the two columns the success print
subscripts. -/
def demoRecord : JobRecord :=
  [("公司名稱", Json.str "Acme"), ("職缺名稱", Json.str "Dev")]

/-- An oracle that fails on item `"B"` with the withdrawn-listing error and
succeeds elsewhere. -/
def demoFetchFailB : String → Except PyError JobRecord :=
  fun id => if id = "B" then Except.error (PyError.valueError "此職缺資料不完整或已下架")
            else Except.ok demoRecord

/-- An oracle that succeeds on every item. -/
def demoFetchOk : String → Except PyError JobRecord :=
  fun _ => Except.ok demoRecord

/-! ## Helper lemmas -/

/-- Inversion of `bind` in the `Except` monad: a successful composite means
each stage succeeded. -/
theorem except_bind_ok {α β : Type} {x : Except PyError α} {f : α → Except PyError β} {b : β} :
    (x >>= f = Except.ok b) ↔ ∃ a, x = Except.ok a ∧ f a = Except.ok b := by
  cases x <;> simp [Bind.bind, Except.bind]

/-- The computation `x` never fails with a `ValueError`. -/
def NoVE {α : Type} (x : Except PyError α) : Prop :=
  ∀ m, x ≠ Except.error (PyError.valueError m)

theorem noVE_ok {α : Type} (a : α) : NoVE (Except.ok a) := by
  intro m h
  exact Except.noConfusion h

theorem noVE_attr {α : Type} : NoVE (Except.error PyError.attributeError : Except PyError α) := by
  intro m h
  simp at h

theorem noVE_type {α : Type} : NoVE (Except.error PyError.typeError : Except PyError α) := by
  intro m h
  simp at h

theorem noVE_bind {α β : Type} {x : Except PyError α} {f : α → Except PyError β}
    (hx : NoVE x) (hf : ∀ a, NoVE (f a)) : NoVE (x >>= f) := by
  intro m h
  cases x with
  | error e =>
    simp only [Bind.bind, Except.bind] at h
    injection h with he
    exact hx m (by rw [he])
  | ok a => simp only [Bind.bind, Except.bind] at h; exact hf a m h

theorem noVE_ite {α : Type} {c : Prop} [Decidable c] {x y : Except PyError α}
    (hx : NoVE x) (hy : NoVE y) : NoVE (if c then x else y) := by
  by_cases h : c
  · simpa [h] using hx
  · simpa [h] using hy

theorem noVE_pyGet (j : Json) (k : String) : NoVE (pyGet j k) := by
  intro m h
  cases j <;> simp [pyGet] at h

theorem noVE_pyGetD (j : Json) (k : String) (d : Json) : NoVE (pyGetD j k d) := by
  intro m h
  cases j <;> simp [pyGetD] at h

theorem noVE_pyIter (j : Json) : NoVE (pyIter j) := by
  intro m h
  cases j <;> simp [pyIter] at h

theorem noVE_pyReplace (j : Json) : NoVE (pyReplace j) := by
  intro m h
  cases j <;> simp [pyReplace] at h

theorem noVE_pyAdd (a b : Json) : NoVE (pyAdd a b) := by
  intro m h
  cases a <;> cases b <;> simp [pyAdd, asNum] at h

theorem noVE_strList (xs : List Json) : NoVE (strList xs) := by
  induction xs with
  | nil => exact noVE_ok []
  | cons x rest ih =>
    cases x <;> simp only [strList] <;> try exact noVE_type
    exact noVE_bind ih fun tail => noVE_ok _

theorem noVE_pyJoin (sep : String) (xs : List Json) : NoVE (pyJoin sep xs) := by
  exact noVE_bind (noVE_strList xs) fun ss => noVE_ok _

theorem noVE_langLoop (xs : List Json) : NoVE (langLoop xs) := by
  induction xs with
  | nil => exact noVE_ok []
  | cons lang rest ih =>
    simp only [langLoop]
    refine noVE_bind (noVE_pyGetD _ _ _) fun li => ?_
    refine noVE_bind (noVE_pyGetD _ _ _) fun ab => ?_
    refine noVE_bind ih fun tail => ?_
    exact noVE_ite (noVE_ite (noVE_ok _) (noVE_ok _)) (noVE_ok _)

theorem noVE_descList (xs : List Json) : NoVE (descList xs) := by
  induction xs with
  | nil => exact noVE_ok []
  | cons sp rest ih =>
    simp only [descList]
    refine noVE_bind (noVE_pyGet _ _) fun filt => ?_
    refine noVE_ite ?_ ih
    refine noVE_bind (noVE_pyGetD _ _ _) fun v => ?_
    exact noVE_bind ih fun tail => noVE_ok _

theorem noVE_companyName (info cust header : Json) : NoVE (companyName info cust header) := by
  unfold companyName
  refine noVE_bind (noVE_pyGet _ _) fun a => ?_
  refine noVE_ite (noVE_ok _) ?_
  refine noVE_bind (noVE_pyGet _ _) fun b => ?_
  refine noVE_ite (noVE_ok _) ?_
  refine noVE_bind (noVE_pyGet _ _) fun c => ?_
  exact noVE_ite (noVE_ok _) (noVE_ok _)

theorem noVE_jobName (detail header info : Json) : NoVE (jobName detail header info) := by
  unfold jobName
  refine noVE_bind (noVE_pyGet _ _) fun a => ?_
  refine noVE_ite (noVE_ok _) ?_
  refine noVE_bind (noVE_pyGet _ _) fun b => ?_
  refine noVE_ite (noVE_ok _) ?_
  refine noVE_bind (noVE_pyGet _ _) fun c => ?_
  exact noVE_ite (noVE_ok _) (noVE_ok _)

theorem noVE_languageField (condition : Json) : NoVE (languageField condition) := by
  unfold languageField
  refine noVE_bind (noVE_pyGetD _ _ _) fun lv => ?_
  refine noVE_bind (noVE_pyIter _) fun items => ?_
  refine noVE_bind (noVE_langLoop _) fun lang_list => ?_
  exact noVE_ite (noVE_ok _) (noVE_pyJoin _ _)

theorem noVE_specialtySkill (key : String) (condition detail : Json) :
    NoVE (specialtySkill key condition detail) := by
  unfold specialtySkill
  refine noVE_bind (noVE_pyGet _ _) fun cv => ?_
  refine noVE_bind ?_ fun sp => noVE_ok _
  cases cv
  case str s => exact noVE_ok _
  case arr sps =>
    exact noVE_bind (noVE_descList _) fun lst =>
      noVE_bind (noVE_pyJoin _ _) fun s => noVE_ok _
  all_goals exact noVE_bind (noVE_pyGet _ _) fun dv => noVE_ite (noVE_ok _) (noVE_ok _)

theorem noVE_otherChain (condition detail info : Json) : NoVE (otherChain condition detail info) := by
  unfold otherChain
  refine noVE_bind (noVE_pyGet _ _) fun a => ?_
  refine noVE_ite (noVE_ok _) ?_
  refine noVE_bind (noVE_pyGet _ _) fun b => ?_
  refine noVE_ite (noVE_ok _) ?_
  refine noVE_bind (noVE_pyGetD _ _ _) fun req => ?_
  refine noVE_bind (noVE_pyGet _ _) fun c => ?_
  exact noVE_ite (noVE_ok _) (noVE_ok _)

theorem noVE_otherField (condition detail info : Json) : NoVE (otherField condition detail info) := by
  unfold otherField
  exact noVE_bind (noVE_otherChain _ _ _) fun oc => noVE_ok _

theorem noVE_locationField (detail : Json) : NoVE (locationField detail) := by
  unfold locationField
  refine noVE_bind (noVE_pyGetD _ _ _) fun r => ?_
  refine noVE_bind (noVE_pyGetD _ _ _) fun d => ?_
  exact noVE_pyAdd _ _

theorem noVE_descriptionField (detail : Json) : NoVE (descriptionField detail) := by
  unfold descriptionField
  refine noVE_bind (noVE_pyGetD _ _ _) fun j => ?_
  refine noVE_bind (noVE_pyReplace _) fun s => ?_
  exact noVE_ok _

theorem noVE_normalizeInfo (job_id : String) (info : Json) : NoVE (normalizeInfo job_id info) := by
  unfold normalizeInfo
  refine noVE_bind (noVE_pyGetD _ _ _) fun header => ?_
  refine noVE_bind (noVE_pyGetD _ _ _) fun detail => ?_
  refine noVE_bind (noVE_pyGetD _ _ _) fun condition => ?_
  refine noVE_bind (noVE_pyGetD _ _ _) fun cust => ?_
  refine noVE_bind (noVE_pyGetD _ _ _) fun welfare => ?_
  refine noVE_bind (noVE_companyName _ _ _) fun company_name => ?_
  refine noVE_bind (noVE_jobName _ _ _) fun job_name => ?_
  refine noVE_bind (noVE_languageField _) fun language => ?_
  refine noVE_bind (noVE_specialtySkill _ _ _) fun specialty => ?_
  refine noVE_bind (noVE_specialtySkill _ _ _) fun skills => ?_
  refine noVE_bind (noVE_otherField _ _ _) fun other_condition => ?_
  refine noVE_bind (noVE_locationField _) fun location => ?_
  refine noVE_bind (noVE_pyGetD _ _ _) fun workExp => ?_
  refine noVE_bind (noVE_pyGetD _ _ _) fun edu => ?_
  refine noVE_bind (noVE_pyGetD _ _ _) fun salary => ?_
  refine noVE_bind (noVE_pyGetD _ _ _) fun welfareV => ?_
  refine noVE_bind (noVE_pyGetD _ _ _) fun needEmp => ?_
  refine noVE_bind (noVE_descriptionField _) fun jobDesc => ?_
  refine noVE_bind (noVE_pyGetD _ _ _) fun appearDate => ?_
  exact noVE_ok _

theorem sectionOf_eq (kvs : List (String × Json)) (k : String) :
    pyGetD (Json.obj kvs) k (Json.obj []) = Except.ok (sectionOf kvs k) := rfl

/-- Inversion of a successful `normalizeInfo`: every stage succeeded, and
the row is the `job_data` literal over the stage results. -/
theorem normalizeInfo_ok_elim (jid : String) (info : Json) (r : JobRecord)
    (h : normalizeInfo jid info = Except.ok r) :
    ∃ header detail condition cust welfare cn jn lang sp sk oth loc we ed sal wel ne jd ad,
      pyGetD info "header" (Json.obj []) = Except.ok header ∧
      pyGetD info "jobDetail" (Json.obj []) = Except.ok detail ∧
      pyGetD info "condition" (Json.obj []) = Except.ok condition ∧
      pyGetD info "custInfo" (Json.obj []) = Except.ok cust ∧
      pyGetD info "welfare" (Json.obj []) = Except.ok welfare ∧
      companyName info cust header = Except.ok cn ∧
      jobName detail header info = Except.ok jn ∧
      languageField condition = Except.ok lang ∧
      specialtySkill "specialty" condition detail = Except.ok sp ∧
      specialtySkill "skill" condition detail = Except.ok sk ∧
      otherField condition detail info = Except.ok oth ∧
      locationField detail = Except.ok loc ∧
      pyGetD condition "workExp" (Json.str "") = Except.ok we ∧
      pyGetD condition "edu" (Json.str "") = Except.ok ed ∧
      pyGetD detail "salary" (Json.str "") = Except.ok sal ∧
      pyGetD welfare "welfare" (Json.str "") = Except.ok wel ∧
      pyGetD detail "needEmp" (Json.str "") = Except.ok ne ∧
      descriptionField detail = Except.ok jd ∧
      pyGetD header "appearDate" (Json.str "") = Except.ok ad ∧
      r = [("公司名稱", cn),
           ("職缺名稱", jn),
           ("地點", loc),
           ("工作經歷", we),
           ("學歷", ed),
           ("語言能力", Json.str lang),
           ("擅長工具", sp),
           ("工作技能", sk),
           ("薪資", sal),
           ("福利", wel),
           ("職缺需求人數", ne),
           ("工作內容", Json.str jd),
           ("其他條件", Json.str oth),
           ("職缺更新日期", ad),
           ("職缺連結", Json.str ("https://www.104.com.tw/job/" ++ jid))] := by
  unfold normalizeInfo at h
  simp only [except_bind_ok, Except.ok.injEq] at h
  obtain ⟨header, h1, detail, h2, condition, h3, cust, h4, welfare, h5, cn, h6, jn, h7,
    lang, h8, sp, h9, sk, h10, oth, h11, loc, h12, we, h13, ed, h14, sal, h15, wel, h16,
    ne, h17, jd, h18, ad, h19, hr⟩ := h
  exact ⟨header, detail, condition, cust, welfare, cn, jn, lang, sp, sk, oth, loc, we, ed,
    sal, wel, ne, jd, ad, h1, h2, h3, h4, h5, h6, h7, h8, h9, h10, h11, h12, h13, h14, h15,
    h16, h17, h18, h19, hr.symm⟩

/-- Inversion of a successful `fetch_job_detail`: the body is a mapping, its
`data` field is truthy, and normalization of that field succeeded. -/
theorem fetch_ok_elim (jid : String) (body : Json) (r : JobRecord)
    (h : fetch_job_detail jid body = Except.ok r) :
    ∃ bkvs, body = Json.obj bkvs ∧
      truthy ((dictLookup bkvs "data").getD Json.null) = true ∧
      normalizeInfo (extract_job_id jid) ((dictLookup bkvs "data").getD Json.null) =
        Except.ok r := by
  cases body <;> simp only [fetch_job_detail, pyGet, Bind.bind, Except.bind] at h <;>
    try exact absurd h (by simp)
  case obj bkvs =>
    by_cases ht : truthy ((dictLookup bkvs "data").getD Json.null) = true
    · rw [if_pos ht] at h
      exact ⟨bkvs, rfl, ht, h⟩
    · rw [if_neg ht] at h
      exact absurd h (by simp)

theorem dictLookup_nil (k : String) : dictLookup [] k = none := rfl

theorem strLike_elim {o : Option Json} (h : StrLike o) :
    o.getD Json.null = Json.str (strOf o) ∨ (o.getD Json.null = Json.null ∧ strOf o = "") := by
  rcases h with h | h | ⟨s, h⟩ <;> subst h
  · exact Or.inr ⟨rfl, rfl⟩
  · exact Or.inr ⟨rfl, rfl⟩
  · exact Or.inl rfl

/-- One step of a Python `or` chain over a string-like source. -/
theorem chain_step (o : Option Json) (h : StrLike o) (rest : Except PyError Json) (restS : String)
    (hrest : rest = Except.ok (Json.str restS)) :
    (if truthy (o.getD Json.null) = true then Except.ok (o.getD Json.null) else rest) =
      Except.ok (Json.str (if strOf o ≠ "" then strOf o else restS)) := by
  rcases strLike_elim h with e | ⟨e, f⟩
  · rw [e]
    by_cases hs : strOf o = ""
    · simp [truthy, hs, hrest]
    · simp [truthy, hs]
  · rw [e, f]
    simp [truthy, hrest]

/-- On string-like sources, the company chain computes the spec's
prioritized fallback. -/
theorem companyName_str (ikvs ckvs hkvs : List (String × Json))
    (h1 : StrLike (dictLookup ikvs "custName"))
    (h2 : StrLike (dictLookup ckvs "custName"))
    (h3 : StrLike (dictLookup hkvs "custName")) :
    companyName (Json.obj ikvs) (Json.obj ckvs) (Json.obj hkvs) =
      Except.ok (Json.str (specCompanyChain
        (strOf (dictLookup ikvs "custName"))
        (strOf (dictLookup ckvs "custName"))
        (strOf (dictLookup hkvs "custName")))) := by
  unfold companyName
  simp only [pyGet, Bind.bind, Except.bind]
  have e3 := chain_step (dictLookup hkvs "custName") h3
    (Except.ok (Json.str "（未知公司）")) "（未知公司）" rfl
  have e2 := chain_step (dictLookup ckvs "custName") h2 _ _ e3
  have e1 := chain_step (dictLookup ikvs "custName") h1 _ _ e2
  rw [e1]
  rfl

/-- On string-like sources, the job-title chain computes the spec's
prioritized fallback. -/
theorem jobName_str (dkvs hkvs ikvs : List (String × Json))
    (h1 : StrLike (dictLookup dkvs "jobName"))
    (h2 : StrLike (dictLookup hkvs "jobName"))
    (h3 : StrLike (dictLookup ikvs "jobName")) :
    jobName (Json.obj dkvs) (Json.obj hkvs) (Json.obj ikvs) =
      Except.ok (Json.str (specJobChain
        (strOf (dictLookup dkvs "jobName"))
        (strOf (dictLookup hkvs "jobName"))
        (strOf (dictLookup ikvs "jobName")))) := by
  unfold jobName
  simp only [pyGet, Bind.bind, Except.bind]
  have e3 := chain_step (dictLookup ikvs "jobName") h3
    (Except.ok (Json.str "（未命名職缺）")) "（未命名職缺）" rfl
  have e2 := chain_step (dictLookup hkvs "jobName") h2 _ _ e3
  have e1 := chain_step (dictLookup dkvs "jobName") h1 _ _ e2
  rw [e1]
  rfl

theorem strList_map_str (ss : List String) :
    strList (ss.map Json.str) = Except.ok ss := by
  induction ss with
  | nil => rfl
  | cons s rest ih => simp [strList, ih, Bind.bind, Except.bind]

theorem pyJoin_map_str (sep : String) (ss : List String) :
    pyJoin sep (ss.map Json.str) = Except.ok (String.intercalate sep ss) := by
  simp [pyJoin, strList_map_str, Bind.bind, Except.bind]

/-- On a well-typed entry list, the language loop collects exactly the
formatted entries whose language is non-empty. -/
theorem langLoop_forall2 {l : List Json} {es : List (String × String)}
    (h : List.Forall₂ LangEntry l es) :
    langLoop l =
      Except.ok (((es.filter (fun e => e.1 ≠ "")).map fmtLangEntry).map Json.str) := by
  induction h with
  | nil => rfl
  | @cons j e l2 es2 he hrest ih =>
    obtain ⟨kvs, hj, hl, ha⟩ := he
    subst hj
    simp only [langLoop, pyGetD, Bind.bind, Except.bind, ih]
    rcases hl with ⟨hn, h1⟩ | h1
    · rw [hn]
      simp [truthy, List.filter_cons, h1]
    · rw [h1]
      by_cases he1 : e.1 = ""
      · simp [truthy, he1, List.filter_cons]
      · rcases ha with ⟨han, ha2⟩ | ha2
        · rw [han]
          simp [truthy, he1, List.filter_cons, fmtLangEntry, ha2, pyStr]
        · rw [ha2]
          by_cases he2 : e.2 = ""
          · simp [truthy, he1, he2, List.filter_cons, fmtLangEntry, pyStr]
          · simp [truthy, he1, he2, List.filter_cons, fmtLangEntry, pyStr]

/-- Emptiness test and join after mapping into string values. -/
theorem ifIsEmpty_join (fs : List String) :
    (if (fs.map Json.str).isEmpty = true then Except.ok "未指定"
     else pyJoin ", " (fs.map Json.str)) =
      Except.ok (if fs.isEmpty then "未指定" else String.intercalate ", " fs) := by
  cases fs with
  | nil => rfl
  | cons a rest =>
    rw [show ((a :: rest).map Json.str).isEmpty = false from rfl,
        show (a :: rest).isEmpty = false from rfl]
    simp only [Bool.false_eq_true, if_false]
    exact pyJoin_map_str ", " (a :: rest)

/-- On a well-typed language list, the 語言能力 field is the amended
spec formula. -/
theorem languageField_forall2 (ckvs : List (String × Json)) (l : List Json)
    (es : List (String × String))
    (hlang : dictLookup ckvs "language" = some (Json.arr l))
    (h : List.Forall₂ LangEntry l es) :
    languageField (Json.obj ckvs) = Except.ok (specLanguageAmended es) := by
  unfold languageField
  simp only [pyGetD, hlang, Option.getD, Bind.bind, Except.bind, pyIter, langLoop_forall2 h]
  rw [ifIsEmpty_join]
  rfl

/-- On a well-typed entry list, the desc comprehension collects exactly the
non-empty descriptions. -/
theorem descList_forall2 {l : List Json} {ds : List String}
    (h : List.Forall₂ DescEntry l ds) :
    descList l = Except.ok ((ds.filter (fun d => d ≠ "")).map Json.str) := by
  induction h with
  | nil => rfl
  | @cons j d l2 ds2 he hrest ih =>
    obtain ⟨kvs, hj, hd⟩ := he
    subst hj
    simp only [descList, pyGet, pyGetD, Bind.bind, Except.bind]
    rcases hd with ⟨hn, h1⟩ | h1
    · rw [hn]
      simp [truthy, List.filter_cons, h1, ih]
    · rw [h1]
      by_cases hd1 : d = ""
      · simp [truthy, hd1, List.filter_cons, ih]
      · simp [truthy, hd1, List.filter_cons, ih, Bind.bind, Except.bind]

/-- The trailing `if not specialty: specialty = "未指定"` on a string value
is the spec's placeholder step. -/
theorem ifTruthyStr (x : String) :
    (if truthy (Json.str x) = true then Json.str x else Json.str "未指定") =
      Json.str (orPlaceholder x) := by
  by_cases hx : x = ""
  · simp [truthy, hx, orPlaceholder]
  · simp [truthy, hx, orPlaceholder]

/-- The amended three-way dispatch: on a well-typed document the
specialty/skill field equals the spec-side value. -/
theorem specialtySkill_spec (ckvs dkvs : List (String × Json)) (key : String) (out : String)
    (h : DispatchSpec ckvs dkvs key out) :
    specialtySkill key (Json.obj ckvs) (Json.obj dkvs) = Except.ok (Json.str out) := by
  unfold specialtySkill
  rcases h with ⟨l, ds, hk, hfa, ho⟩ | ⟨s, hk, ho⟩ | ⟨hk, t, ht, ho⟩
  · simp only [pyGet, hk, Option.getD, Bind.bind, Except.bind, descList_forall2 hfa,
      pyJoin_map_str]
    rw [ifTruthyStr]
    subst ho
    rfl
  · simp only [pyGet, hk, Option.getD, Bind.bind, Except.bind]
    rw [ifTruthyStr]
    subst ho
    rfl
  · have hcv : (dictLookup ckvs key).getD Json.null = Json.null := by
      rcases hk with hk | hk <;> rw [hk] <;> rfl
    simp only [pyGet, hcv, Bind.bind, Except.bind]
    rcases ht with ⟨hn, h1⟩ | h1
    · rw [hn]
      subst ho
      simp [truthy, h1, orPlaceholder]
    · rw [h1]
      subst ho
      by_cases htt : t = ""
      · simp [truthy, htt, orPlaceholder]
      · simp [truthy, htt, orPlaceholder]

theorem languageField_empty : languageField (Json.obj []) = Except.ok "未指定" := rfl

theorem specialtySkill_empty (key : String) :
    specialtySkill key (Json.obj []) (Json.obj []) = Except.ok (Json.str "未指定") := rfl

theorem locationField_empty : locationField (Json.obj []) = Except.ok (Json.str "") := rfl

theorem descriptionField_empty : descriptionField (Json.obj []) = Except.ok "" := rfl

theorem pyGetD_empty (k : String) (d : Json) : pyGetD (Json.obj []) k d = Except.ok d := rfl

/-- With empty eligibility and job-detail sections, the 其他條件 chain
reduces to the `requirement` lookup. -/
theorem otherChain_reqOnly (kvs : List (String × Json)) :
    otherChain (Json.obj []) (Json.obj []) (Json.obj kvs) =
      (do
        let req ← pyGetD (Json.obj kvs) "requirement" (Json.obj [])
        let c ← pyGet req "other"
        if truthy c = true then Except.ok c else Except.ok (Json.str "")) := rfl

theorem otherChain_empty (kvs : List (String × Json))
    (hreq : ObjOrAbsent (dictLookup kvs "requirement")) :
    ∃ j, otherChain (Json.obj []) (Json.obj []) (Json.obj kvs) = Except.ok j := by
  rcases hreq with hn | ⟨rkvs, hr⟩
  · refine ⟨Json.str "", ?_⟩
    rw [otherChain_reqOnly]
    simp only [pyGetD, hn, Option.getD, Bind.bind, Except.bind, pyGet, dictLookup]
    rfl
  · rw [otherChain_reqOnly]
    simp only [pyGetD, hr, Option.getD_some, Bind.bind, Except.bind, pyGet]
    by_cases ht : truthy ((dictLookup rkvs "other").getD Json.null) = true
    · rw [if_pos ht]
      exact ⟨_, rfl⟩
    · rw [if_neg ht]
      exact ⟨_, rfl⟩

theorem otherField_empty (kvs : List (String × Json))
    (hreq : ObjOrAbsent (dictLookup kvs "requirement")) :
    ∃ s, otherField (Json.obj []) (Json.obj []) (Json.obj kvs) = Except.ok s := by
  obtain ⟨j, hj⟩ := otherChain_empty kvs hreq
  refine ⟨pyStrip (String.mk (replaceCRLF (pyStr j).toList)), ?_⟩
  unfold otherField
  rw [hj]
  rfl

/-- Introduction of a successful `normalizeInfo` from its stages. -/
theorem normalizeInfo_ok_intro (jid : String) (info : Json)
    (header detail condition cust welfare cn jn sp sk loc we ed sal wel ne ad : Json)
    (lang oth jd : String)
    (h1 : pyGetD info "header" (Json.obj []) = Except.ok header)
    (h2 : pyGetD info "jobDetail" (Json.obj []) = Except.ok detail)
    (h3 : pyGetD info "condition" (Json.obj []) = Except.ok condition)
    (h4 : pyGetD info "custInfo" (Json.obj []) = Except.ok cust)
    (h5 : pyGetD info "welfare" (Json.obj []) = Except.ok welfare)
    (h6 : companyName info cust header = Except.ok cn)
    (h7 : jobName detail header info = Except.ok jn)
    (h8 : languageField condition = Except.ok lang)
    (h9 : specialtySkill "specialty" condition detail = Except.ok sp)
    (h10 : specialtySkill "skill" condition detail = Except.ok sk)
    (h11 : otherField condition detail info = Except.ok oth)
    (h12 : locationField detail = Except.ok loc)
    (h13 : pyGetD condition "workExp" (Json.str "") = Except.ok we)
    (h14 : pyGetD condition "edu" (Json.str "") = Except.ok ed)
    (h15 : pyGetD detail "salary" (Json.str "") = Except.ok sal)
    (h16 : pyGetD welfare "welfare" (Json.str "") = Except.ok wel)
    (h17 : pyGetD detail "needEmp" (Json.str "") = Except.ok ne)
    (h18 : descriptionField detail = Except.ok jd)
    (h19 : pyGetD header "appearDate" (Json.str "") = Except.ok ad) :
    normalizeInfo jid info = Except.ok
      [("公司名稱", cn),
       ("職缺名稱", jn),
       ("地點", loc),
       ("工作經歷", we),
       ("學歷", ed),
       ("語言能力", Json.str lang),
       ("擅長工具", sp),
       ("工作技能", sk),
       ("薪資", sal),
       ("福利", wel),
       ("職缺需求人數", ne),
       ("工作內容", Json.str jd),
       ("其他條件", Json.str oth),
       ("職缺更新日期", ad),
       ("職缺連結", Json.str ("https://www.104.com.tw/job/" ++ jid))] := by
  unfold normalizeInfo
  simp only [except_bind_ok, Except.ok.injEq]
  exact ⟨header, h1, detail, h2, condition, h3, cust, h4, welfare, h5, cn, h6, jn, h7,
    lang, h8, sp, h9, sk, h10, oth, h11, loc, h12, we, h13, ed, h14, sal, h15, wel, h16,
    ne, h17, jd, h18, ad, h19, rfl⟩

theorem truthy_obj_of_lookup {kvs : List (String × Json)} {k : String} {v : Json}
    (h : dictLookup kvs k = some v) : truthy (Json.obj kvs) = true := by
  cases kvs with
  | nil => exact absurd h (by simp [dictLookup])
  | cons a rest => rfl

/-- Introduction of a successful `fetch_job_detail` from a successful
normalization of a present `data` object. -/
theorem fetch_ok_intro (jid : String) (bkvs kvs : List (String × Json)) (R : JobRecord)
    (hdata : dictLookup bkvs "data" = some (Json.obj kvs))
    (htruthy : truthy (Json.obj kvs) = true)
    (hnorm : normalizeInfo (extract_job_id jid) (Json.obj kvs) = Except.ok R) :
    fetch_job_detail jid (Json.obj bkvs) = Except.ok R := by
  unfold fetch_job_detail
  simp only [pyGet, hdata, Option.getD, Bind.bind, Except.bind, htruthy, if_true]
  exact hnorm

/-- The collected rows are exactly the successful fetch results, in listing
order, regardless of print-time key lookups. -/
theorem runDriver_records (fetch : String → Except PyError JobRecord) (items : List String) :
    (runDriver fetch items).1 = items.filterMap (fun id => (fetch id).toOption) := by
  induction items with
  | nil => rfl
  | cons id rest ih =>
    cases h : fetch id <;>
      simp [runDriver, processItem, h, ih, Except.toOption, List.filterMap_cons]

theorem runDriver_events_append (fetch : String → Except PyError JobRecord)
    (l1 l2 : List String) :
    (runDriver fetch (l1 ++ l2)).2 = (runDriver fetch l1).2 ++ (runDriver fetch l2).2 := by
  induction l1 with
  | nil => rfl
  | cons id rest ih => simp [runDriver, ih, List.append_assoc]

theorem filterMap_length_of_ok (fetch : String → Except PyError JobRecord) (l : List String)
    (h : ∀ id ∈ l, ∃ r, fetch id = Except.ok r) :
    (l.filterMap (fun id => (fetch id).toOption)).length = l.length := by
  induction l with
  | nil => rfl
  | cons id rest ih =>
    obtain ⟨r, hr⟩ := h id (by simp)
    have h2 := ih (fun i hi => h i (by simp [hi]))
    simp only [List.filterMap_cons, hr, Except.toOption, List.length_cons]
    exact congrArg (fun n => n + 1) h2

/-! ## Claim theorems -/

/-- C9 counterexample: the code's table does not map 雲林縣/彰化縣 to a
shared code, nor 嘉義市/嘉義縣 — the four codes are `6001012000`,
`6001011000`, `6001010000`, `6001011000`, so both alleged collisions fail
(the claim's conjunction is false). -/
theorem area_codes_spec_pairs_counterexample :
    tableLookup AREA_CODES "雲林縣" = some "6001012000" ∧
    tableLookup AREA_CODES "彰化縣" = some "6001011000" ∧
    tableLookup AREA_CODES "嘉義市" = some "6001010000" ∧
    tableLookup AREA_CODES "嘉義縣" = some "6001011000" ∧
    ¬(tableLookup AREA_CODES "雲林縣" = tableLookup AREA_CODES "彰化縣" ∧
      tableLookup AREA_CODES "嘉義市" = tableLookup AREA_CODES "嘉義縣") := by
  refine ⟨rfl, rfl, rfl, rfl, ?_⟩
  intro h
  exact absurd h.1 (by decide)

/-- C9 amended: the table does map two distinct names to one shared code,
but the colliding pair is 彰化縣/嘉義縣 (both `6001011000`); the pairs the
spec names do not collide. -/
theorem area_codes_actual_collision :
    tableLookup AREA_CODES "彰化縣" = some "6001011000" ∧
    tableLookup AREA_CODES "嘉義縣" = some "6001011000" ∧
    "彰化縣" ≠ "嘉義縣" ∧
    tableLookup AREA_CODES "雲林縣" ≠ tableLookup AREA_CODES "彰化縣" ∧
    tableLookup AREA_CODES "嘉義市" ≠ tableLookup AREA_CODES "嘉義縣" := by
  exact ⟨rfl, rfl, by decide, by decide, by decide⟩

/-- C5: evaluation at the failing input. `area=台北市,新北市` resolves to
the joined codes (scenario A), but `area =台北市` — whose key trims to
`"area"` — is stored unconverted, because the code compares the untrimmed
key against `"area"` even though it stores the trimmed key. -/
theorem read_config_area_key_untrimmed :
    (read_config ["area=台北市,新北市"]).1 = [("area", "6001001000,6001002000")] ∧
    (read_config ["area =台北市"]).1 = [("area", "台北市")] ∧
    pyStrip "area " = "area" := by
  exact ⟨rfl, rfl, rfl⟩

/-- C10: a non-blank, non-comment line without `=` is silently skipped —
no params entry, no warning, no error. -/
theorem config_line_without_equals_skipped (params : List (String × String))
    (warns : List String) (line : String)
    (h1 : pyStrip line ≠ "")
    (h2 : startsWithHash (pyStrip line) = false)
    (h3 : hasEq (pyStrip line) = false) :
    read_config_line (params, warns) line = (params, warns) := by
  unfold read_config_line
  rw [if_neg h1, if_neg (by rw [h2]; exact Bool.false_ne_true), if_pos (by rw [h3]; rfl)]

/-- C10 witness: the line `"  foo bar  "` leaves the params and warnings
untouched. -/
theorem config_line_without_equals_skipped_witness :
    read_config_line ([("keyword", "python")], []) "  foo bar  " =
      ([("keyword", "python")], []) :=
  config_line_without_equals_skipped [("keyword", "python")] [] "  foo bar  "
    (by decide) (by decide) (by decide)

/-- C8 counterexample: the well-formed body `{"data": "x"}` has a present,
non-empty business-data field, yet the normalizer raises — and the raised
failure is an `AttributeError`, not the withdrawn-listing `ValueError`. -/
theorem detail_nonmapping_data_counterexample :
    fetch_job_detail "1" nonMappingDataBody = Except.error PyError.attributeError ∧
    truthy ((dictLookup [("data", Json.str "x")] "data").getD Json.null) = true ∧
    PyError.attributeError ≠ PyError.valueError "此職缺資料不完整或已下架" := by
  exact ⟨rfl, rfl, by decide⟩

/-- C8 amended: the withdrawn-listing `ValueError` is raised exactly when
the body is a mapping whose business-data field is absent or falsy; a
present, non-empty `data` never produces that `ValueError` (ill-shaped data
raises attribute/type errors instead), and the `ValueError` is distinct from
transport (HTTP-status) failures. -/
theorem detail_withdrawn_valueerror_iff :
    (∀ (jid : String) (body : Json) (m : String),
      fetch_job_detail jid body = Except.error (PyError.valueError m) ↔
        (m = "此職缺資料不完整或已下架" ∧
         ∃ bkvs, body = Json.obj bkvs ∧
           truthy ((dictLookup bkvs "data").getD Json.null) = false)) ∧
    (∀ (m : String) (c : Nat), PyError.valueError m ≠ PyError.httpError c) := by
  constructor
  · intro jid body m
    constructor
    · intro h
      cases body <;> simp only [fetch_job_detail, pyGet, Bind.bind, Except.bind] at h <;>
        try exact absurd h (by simp)
      case obj bkvs =>
        by_cases ht : truthy ((dictLookup bkvs "data").getD Json.null) = true
        · rw [if_pos ht] at h
          exact absurd h (noVE_normalizeInfo _ _ m)
        · rw [if_neg ht] at h
          injection h with he
          injection he with hm
          exact ⟨hm.symm, bkvs, rfl, Bool.not_eq_true _ ▸ ht⟩
    · rintro ⟨hm, bkvs, hb, ht⟩
      subst hb
      subst hm
      simp only [fetch_job_detail, pyGet, Bind.bind, Except.bind]
      rw [if_neg (by rw [ht]; exact Bool.false_ne_true)]
  · intro m c h
    exact PyError.noConfusion h

/-- C7 counterexample: when the first item fails, no sleep separates its
fetch from the next item's fetch — the delay is skipped on failure, so it
is not observed between every pair of consecutive fetches. -/
theorem delay_not_after_failure_counterexample :
    sleepSeparated ((runDriver demoFetchFailB ["B", "C"]).2) = false ∧
    (runDriver demoFetchFailB ["B", "C"]).2 =
      [Event.fetchItem "B", Event.warn "B" "此職缺資料不完整或已下架",
       Event.fetchItem "C", Event.success "Dev" "Acme", Event.sleep] := by
  exact ⟨rfl, rfl⟩

/-- C7 amended: the fixed delay follows each successfully processed item
(only), so when every item processes successfully the delay is observed
between every pair of consecutive fetches. -/
theorem delay_between_fetches_when_all_succeed
    (fetch : String → Except PyError JobRecord) (items : List String)
    (h : ∀ id ∈ items, ∃ r t c, fetch id = Except.ok r ∧
         dictLookup r "職缺名稱" = some t ∧ dictLookup r "公司名稱" = some c) :
    sleepSeparated ((runDriver fetch items).2) = true := by
  induction items with
  | nil => rfl
  | cons id rest ih =>
    obtain ⟨r, t, c, hr, ht, hc⟩ := h id (by simp)
    have hrest := ih (fun i hi => h i (by simp [hi]))
    simp only [runDriver, processItem, hr, successEvents, ht, hc, List.cons_append,
      List.nil_append, sleepSeparated, sleepSep] at hrest ⊢
    exact hrest

/-- C7 amended witness: an all-success two-item run has sleeps between
consecutive fetches. -/
theorem delay_between_fetches_when_all_succeed_witness :
    sleepSeparated ((runDriver demoFetchOk ["A", "B"]).2) = true :=
  delay_between_fetches_when_all_succeed demoFetchOk ["A", "B"]
    (fun _ _ => ⟨demoRecord, Json.str "Dev", Json.str "Acme", rfl, rfl, rfl⟩)

/-- C6: when item `bad` fails (with any error, e.g. the withdrawn-listing
one) and the other items succeed, the run continues: the rows are exactly
those of the other items in order (`bad` omitted), their count is N−1, and
a warning naming `bad` and the failure reason is in the trace. -/
theorem run_driver_skips_failed_item (fetch : String → Except PyError JobRecord)
    (pre post : List String) (bad : String) (e : PyError)
    (hbad : fetch bad = Except.error e)
    (hok : ∀ id ∈ pre ++ post, ∃ r, fetch id = Except.ok r) :
    (runDriver fetch (pre ++ bad :: post)).1.length = (pre ++ bad :: post).length - 1 ∧
    (runDriver fetch (pre ++ bad :: post)).1 = (runDriver fetch (pre ++ post)).1 ∧
    Event.warn bad (errMsg e) ∈ (runDriver fetch (pre ++ bad :: post)).2 := by
  have hpre : ∀ id ∈ pre, ∃ r, fetch id = Except.ok r :=
    fun i hi => hok i (by simp [hi])
  have hpost : ∀ id ∈ post, ∃ r, fetch id = Except.ok r :=
    fun i hi => hok i (by simp [hi])
  have hdrop : (runDriver fetch (pre ++ bad :: post)).1 =
      pre.filterMap (fun id => (fetch id).toOption) ++
      post.filterMap (fun id => (fetch id).toOption) := by
    rw [runDriver_records]
    simp [List.filterMap_append, List.filterMap_cons, hbad, Except.toOption]
  refine ⟨?_, ?_, ?_⟩
  · rw [hdrop]
    simp only [List.length_append, filterMap_length_of_ok fetch pre hpre,
      filterMap_length_of_ok fetch post hpost, List.length_cons]
    omega
  · rw [hdrop, runDriver_records]
    simp [List.filterMap_append]
  · rw [runDriver_events_append]
    refine List.mem_append_right _ ?_
    simp [runDriver, processItem, hbad]

/-- C6 witness: with items A, B, C where B raises the withdrawn-listing
error, the run collects 2 rows (A and C), and the trace warns about B. -/
theorem run_driver_skips_failed_item_witness :
    (runDriver demoFetchFailB (["A"] ++ "B" :: ["C"])).1.length =
      (["A"] ++ "B" :: ["C"]).length - 1 ∧
    (runDriver demoFetchFailB (["A"] ++ "B" :: ["C"])).1 =
      (runDriver demoFetchFailB (["A"] ++ ["C"])).1 ∧
    Event.warn "B" (errMsg (PyError.valueError "此職缺資料不完整或已下架")) ∈
      (runDriver demoFetchFailB (["A"] ++ "B" :: ["C"])).2 :=
  run_driver_skips_failed_item demoFetchFailB ["A"] ["C"] "B"
    (PyError.valueError "此職缺資料不完整或已下架") rfl
    (by
      intro id hid
      simp only [List.cons_append, List.nil_append, List.mem_cons,
        List.not_mem_nil, or_false] at hid
      rcases hid with rfl | rfl
      · exact ⟨demoRecord, rfl⟩
      · exact ⟨demoRecord, rfl⟩)

/-- C2: conditioned on a successful normalization whose three company-name
sources are string-valued or absent, the 公司名稱 field is the spec's
prioritized fallback `specCompanyChain` — in particular, if only the
header-section name is populated, that value is surfaced unchanged, and if
all three are empty/absent the placeholder `（未知公司）` results. -/
theorem company_field_fallback_chain (jid : String) (bkvs kvs : List (String × Json))
    (hdata : dictLookup bkvs "data" = some (Json.obj kvs))
    (htop : StrLike (dictLookup kvs "custName"))
    (hcust : StrLikeField (sectionOf kvs "custInfo") "custName")
    (hhead : StrLikeField (sectionOf kvs "header") "custName")
    (hok : ∃ r, fetch_job_detail jid (Json.obj bkvs) = Except.ok r) :
    fieldOf (fetch_job_detail jid (Json.obj bkvs)) "公司名稱" =
      some (Json.str (specCompanyChain
        (strOf (dictLookup kvs "custName"))
        (strOfField (sectionOf kvs "custInfo") "custName")
        (strOfField (sectionOf kvs "header") "custName"))) := by
  obtain ⟨r, hr⟩ := hok
  obtain ⟨bkvs2, hb, ht, hnorm⟩ := fetch_ok_elim _ _ _ hr
  injection hb with hbk
  subst hbk
  rw [hdata, Option.getD_some] at ht hnorm
  obtain ⟨header, detail, condition, cust, welfare, cn, jn, lang, sp, sk, oth, loc, we, ed,
    sal, wel, ne, jd, ad, g1, g2, g3, g4, g5, g6, g7, g8, g9, g10, g11, g12, g13, g14, g15,
    g16, g17, g18, g19, hrEq⟩ := normalizeInfo_ok_elim _ _ _ hnorm
  rw [sectionOf_eq] at g1 g4
  injection g1 with hH
  injection g4 with hC
  obtain ⟨ckvs, hc1, hc2⟩ := hcust
  obtain ⟨hkvs2, hh1, hh2⟩ := hhead
  have hcomp : companyName (Json.obj kvs) cust header =
      Except.ok (Json.str (specCompanyChain
        (strOf (dictLookup kvs "custName"))
        (strOfField (sectionOf kvs "custInfo") "custName")
        (strOfField (sectionOf kvs "header") "custName"))) := by
    rw [← hC, hc1, ← hH, hh1]
    exact companyName_str kvs ckvs hkvs2 htop hc2 hh2
  rw [g6] at hcomp
  injection hcomp with hcn
  rw [hr, hrEq, hcn]
  rfl

/-- C2 witness: a document whose only company-name source is the header
section surfaces that name unchanged. -/
theorem company_field_fallback_chain_witness :
    fieldOf (fetch_job_detail "5566" headerOnlyCompanyBody) "公司名稱" =
      some (Json.str (specCompanyChain "" "" "小巷咖啡")) :=
  company_field_fallback_chain "5566" [("data", Json.obj headerOnlyCompanyKvs)]
    headerOnlyCompanyKvs rfl (Or.inl rfl)
    ⟨[], rfl, Or.inl rfl⟩
    ⟨headerOnlyHeaderKvs, rfl, Or.inr (Or.inr ⟨"小巷咖啡", rfl⟩)⟩
    ⟨_, rfl⟩

/-- C3 counterexample: for the language list `[{"language": "",
"ability": "Fluent"}]` the claim's per-entry formatting predicts
`":Fluent"`, but the code skips entries with a falsy language and emits the
placeholder `未指定`. -/
theorem language_empty_name_counterexample :
    fieldOf (fetch_job_detail "1" emptyLanguageNameBody) "語言能力" =
      some (Json.str "未指定") ∧
    specLanguageClaim [("", "Fluent")] = ":Fluent" ∧
    ("未指定" : String) ≠ ":Fluent" := by
  exact ⟨rfl, rfl, by decide⟩

/-- C3 amended: entries whose language is empty or absent are skipped; the
remaining entries are formatted `language:ability` (ability non-empty) or
`language`, joined with `", "`; the placeholder `未指定` appears exactly
when no formatted entry remains (in particular for the empty list). -/
theorem language_field_amended (jid : String) (bkvs kvs ckvs : List (String × Json))
    (l : List Json) (es : List (String × String))
    (hdata : dictLookup bkvs "data" = some (Json.obj kvs))
    (hcond : dictLookup kvs "condition" = some (Json.obj ckvs))
    (hlang : dictLookup ckvs "language" = some (Json.arr l))
    (hes : List.Forall₂ LangEntry l es)
    (hok : ∃ r, fetch_job_detail jid (Json.obj bkvs) = Except.ok r) :
    fieldOf (fetch_job_detail jid (Json.obj bkvs)) "語言能力" =
      some (Json.str (specLanguageAmended es)) := by
  obtain ⟨r, hr⟩ := hok
  obtain ⟨bkvs2, hb, ht, hnorm⟩ := fetch_ok_elim _ _ _ hr
  injection hb with hbk
  subst hbk
  rw [hdata, Option.getD_some] at ht hnorm
  obtain ⟨header, detail, condition, cust, welfare, cn, jn, lang, sp, sk, oth, loc, we, ed,
    sal, wel, ne, jd, ad, g1, g2, g3, g4, g5, g6, g7, g8, g9, g10, g11, g12, g13, g14, g15,
    g16, g17, g18, g19, hrEq⟩ := normalizeInfo_ok_elim _ _ _ hnorm
  rw [sectionOf_eq] at g3
  injection g3 with hCond
  have hcondv : condition = Json.obj ckvs := by
    rw [← hCond]
    unfold sectionOf
    rw [hcond, Option.getD_some]
  have hlf := languageField_forall2 ckvs l es hlang hes
  rw [hcondv] at g8
  rw [g8] at hlf
  injection hlf with hlang2
  rw [hr, hrEq, hlang2]
  rfl

/-- C3 witness (scenario B): `[{"language":"English","ability":"Fluent"},
{"language":"Japanese","ability":""}]` yields exactly
`"English:Fluent, Japanese"`. -/
theorem language_field_amended_witness :
    fieldOf (fetch_job_detail "1" scenarioBBody) "語言能力" =
      some (Json.str "English:Fluent, Japanese") :=
  language_field_amended "1" [("data", Json.obj scenarioBKvs)] scenarioBKvs scenarioBCondKvs
    scenarioBLangList [("English", "Fluent"), ("Japanese", "")]
    rfl rfl rfl
    (List.Forall₂.cons ⟨_, rfl, Or.inr rfl, Or.inr rfl⟩
      (List.Forall₂.cons ⟨_, rfl, Or.inr rfl, Or.inr rfl⟩ List.Forall₂.nil))
    ⟨_, rfl⟩

/-- C4 counterexample: for the entry list `[{"desc": ""}, {"desc": "A"}]`
the claim's "join of each entry's description" predicts `", A"`, but the
code filters out falsy descriptions and yields `"A"` (for both the
specialty and the skill field). -/
theorem specialty_empty_desc_counterexample :
    fieldOf (fetch_job_detail "1" emptyDescBody) "擅長工具" = some (Json.str "A") ∧
    fieldOf (fetch_job_detail "1" emptyDescBody) "工作技能" = some (Json.str "A") ∧
    orPlaceholder (specListJoinClaim ["", "A"]) = ", A" ∧
    ("A" : String) ≠ ", A" := by
  exact ⟨rfl, rfl, rfl, by decide⟩

/-- C4 amended: the three-way dispatch holds with the list case joining
only the entries whose description subfield is non-empty (the code's
`if sp.get("desc")` filter); string and fallback cases and the final
placeholder are as the claim states, for both 擅長工具 and 工作技能. -/
theorem specialty_skill_dispatch_amended (jid : String)
    (bkvs kvs ckvs dkvs : List (String × Json)) (vsp vsk : String)
    (hdata : dictLookup bkvs "data" = some (Json.obj kvs))
    (hcond : dictLookup kvs "condition" = some (Json.obj ckvs))
    (hdet : dictLookup kvs "jobDetail" = some (Json.obj dkvs))
    (hsp : DispatchSpec ckvs dkvs "specialty" vsp)
    (hsk : DispatchSpec ckvs dkvs "skill" vsk)
    (hok : ∃ r, fetch_job_detail jid (Json.obj bkvs) = Except.ok r) :
    fieldOf (fetch_job_detail jid (Json.obj bkvs)) "擅長工具" = some (Json.str vsp) ∧
    fieldOf (fetch_job_detail jid (Json.obj bkvs)) "工作技能" = some (Json.str vsk) := by
  obtain ⟨r, hr⟩ := hok
  obtain ⟨bkvs2, hb, ht, hnorm⟩ := fetch_ok_elim _ _ _ hr
  injection hb with hbk
  subst hbk
  rw [hdata, Option.getD_some] at ht hnorm
  obtain ⟨header, detail, condition, cust, welfare, cn, jn, lang, sp, sk, oth, loc, we, ed,
    sal, wel, ne, jd, ad, g1, g2, g3, g4, g5, g6, g7, g8, g9, g10, g11, g12, g13, g14, g15,
    g16, g17, g18, g19, hrEq⟩ := normalizeInfo_ok_elim _ _ _ hnorm
  rw [sectionOf_eq] at g2 g3
  injection g2 with hDet
  injection g3 with hCond
  have hcondv : condition = Json.obj ckvs := by
    rw [← hCond]
    unfold sectionOf
    rw [hcond, Option.getD_some]
  have hdetv : detail = Json.obj dkvs := by
    rw [← hDet]
    unfold sectionOf
    rw [hdet, Option.getD_some]
  have hsp2 := specialtySkill_spec ckvs dkvs "specialty" vsp hsp
  have hsk2 := specialtySkill_spec ckvs dkvs "skill" vsk hsk
  rw [hcondv, hdetv] at g9 g10
  rw [g9] at hsp2
  rw [g10] at hsk2
  injection hsp2 with hv1
  injection hsk2 with hv2
  constructor
  · rw [hr, hrEq, hv1]
    rfl
  · rw [hr, hrEq, hv2]
    rfl

/-- C4 witness: a list-typed specialty `[{"desc":"Python"},
{"desc":"Excel"}]` joins to `"Python, Excel"`, and a string-typed skill is
used directly. -/
theorem specialty_skill_dispatch_amended_witness :
    fieldOf (fetch_job_detail "1" dispatchWitnessBody) "擅長工具" =
      some (Json.str "Python, Excel") ∧
    fieldOf (fetch_job_detail "1" dispatchWitnessBody) "工作技能" =
      some (Json.str "溝通協調") :=
  specialty_skill_dispatch_amended "1" [("data", Json.obj dispatchKvs)] dispatchKvs
    dispatchCondKvs [] "Python, Excel" "溝通協調"
    rfl rfl rfl
    (Or.inl ⟨dispatchSpecialtyList, ["Python", "Excel"], rfl,
      List.Forall₂.cons ⟨_, rfl, Or.inr rfl⟩
        (List.Forall₂.cons ⟨_, rfl, Or.inr rfl⟩ List.Forall₂.nil), rfl⟩)
    (Or.inr (Or.inl ⟨"溝通協調", rfl, rfl⟩))
    ⟨_, rfl⟩

/-- C1 counterexample: a document whose five sections are present-but-empty
mappings but whose top-level `requirement` is the number `7` makes the
normalizer raise an `AttributeError` (at `info.get("requirement",
{}).get("other")`), contradicting "returns exactly one JobRecord without
throwing". -/
theorem normalizer_requirement_throw_counterexample :
    (∀ k ∈ (["header", "jobDetail", "condition", "custInfo", "welfare"] : List String),
      dictLookup requirementNumKvs k = some (Json.obj [])) ∧
    fetch_job_detail "1" requirementNumBody = Except.error PyError.attributeError := by
  refine ⟨?_, rfl⟩
  intro k hk
  fin_cases hk <;> rfl

/-- C1 amended: for a document whose business data is a mapping with the
five sections present-but-empty, whose top-level `custName`/`jobName` are
strings or absent, and whose top-level `requirement` is a mapping or
absent, normalization returns exactly one row, with the 15 columns in
order, every one of them a string. -/
theorem normalizer_empty_sections_total (jid : String) (bkvs kvs : List (String × Json))
    (hdata : dictLookup bkvs "data" = some (Json.obj kvs))
    (hheader : dictLookup kvs "header" = some (Json.obj []))
    (hdetail : dictLookup kvs "jobDetail" = some (Json.obj []))
    (hcond : dictLookup kvs "condition" = some (Json.obj []))
    (hcust : dictLookup kvs "custInfo" = some (Json.obj []))
    (hwelf : dictLookup kvs "welfare" = some (Json.obj []))
    (hcn : StrLike (dictLookup kvs "custName"))
    (hjn : StrLike (dictLookup kvs "jobName"))
    (hreq : ObjOrAbsent (dictLookup kvs "requirement")) :
    ∃ r, fetch_job_detail jid (Json.obj bkvs) = Except.ok r ∧
      r.map Prod.fst =
        ["公司名稱", "職缺名稱", "地點", "工作經歷", "學歷", "語言能力", "擅長工具",
         "工作技能", "薪資", "福利", "職缺需求人數", "工作內容", "其他條件",
         "職缺更新日期", "職缺連結"] ∧
      ∀ kv ∈ r, ∃ s, kv.2 = Json.str s := by
  have hsecH : pyGetD (Json.obj kvs) "header" (Json.obj []) = Except.ok (Json.obj []) := by
    rw [sectionOf_eq]
    unfold sectionOf
    rw [hheader, Option.getD_some]
  have hsecD : pyGetD (Json.obj kvs) "jobDetail" (Json.obj []) = Except.ok (Json.obj []) := by
    rw [sectionOf_eq]
    unfold sectionOf
    rw [hdetail, Option.getD_some]
  have hsecC : pyGetD (Json.obj kvs) "condition" (Json.obj []) = Except.ok (Json.obj []) := by
    rw [sectionOf_eq]
    unfold sectionOf
    rw [hcond, Option.getD_some]
  have hsecCu : pyGetD (Json.obj kvs) "custInfo" (Json.obj []) = Except.ok (Json.obj []) := by
    rw [sectionOf_eq]
    unfold sectionOf
    rw [hcust, Option.getD_some]
  have hsecW : pyGetD (Json.obj kvs) "welfare" (Json.obj []) = Except.ok (Json.obj []) := by
    rw [sectionOf_eq]
    unfold sectionOf
    rw [hwelf, Option.getD_some]
  have hcomp := companyName_str kvs [] [] hcn (Or.inl rfl) (Or.inl rfl)
  have hjob := jobName_str [] [] kvs (Or.inl rfl) (Or.inl rfl) hjn
  obtain ⟨oth, hoth⟩ := otherField_empty kvs hreq
  have hnorm := normalizeInfo_ok_intro (extract_job_id jid) (Json.obj kvs)
    _ _ _ _ _ _ _ _ _ _ _ _ _ _ _ _ _ oth _
    hsecH hsecD hsecC hsecCu hsecW hcomp hjob languageField_empty
    (specialtySkill_empty "specialty") (specialtySkill_empty "skill") hoth
    locationField_empty (pyGetD_empty "workExp" (Json.str ""))
    (pyGetD_empty "edu" (Json.str "")) (pyGetD_empty "salary" (Json.str ""))
    (pyGetD_empty "welfare" (Json.str "")) (pyGetD_empty "needEmp" (Json.str ""))
    descriptionField_empty (pyGetD_empty "appearDate" (Json.str ""))
  refine ⟨_, fetch_ok_intro jid bkvs kvs _ hdata (truthy_obj_of_lookup hheader) hnorm, rfl, ?_⟩
  intro kv hkv
  simp only [List.mem_cons, List.not_mem_nil, or_false] at hkv
  rcases hkv with rfl | rfl | rfl | rfl | rfl | rfl | rfl | rfl | rfl | rfl | rfl | rfl |
    rfl | rfl | rfl <;> exact ⟨_, rfl⟩

/-- C1 witness: the minimal present-but-empty document normalizes to one
all-string row with the fifteen columns. -/
theorem normalizer_empty_sections_total_witness :
    ∃ r, fetch_job_detail "123" emptySectionsBody = Except.ok r ∧
      r.map Prod.fst =
        ["公司名稱", "職缺名稱", "地點", "工作經歷", "學歷", "語言能力", "擅長工具",
         "工作技能", "薪資", "福利", "職缺需求人數", "工作內容", "其他條件",
         "職缺更新日期", "職缺連結"] ∧
      ∀ kv ∈ r, ∃ s, kv.2 = Json.str s :=
  normalizer_empty_sections_total "123" [("data", Json.obj emptySectionsKvs)]
    emptySectionsKvs rfl rfl rfl rfl rfl rfl (Or.inl rfl) (Or.inl rfl) (Or.inl rfl)
